import Mathlib

/-!
Verification of the PyGlossary conversion engine (`pyglossary/glossary_v2.py`
and the legacy wrapper `pyglossary/glossary.py`) against its design
specification.  Python methods are shallowly embedded as pure Lean functions:
the mutable `Glossary` object becomes an explicit state record, logging
becomes an accumulated event list, exceptions become `Except`, and Python's
`Optional[bool]` arguments become `Option Bool` with explicit truthiness.
-/

namespace PyGlossary

/-- One glossary record: headword plus definition body.  Alternates, the
definition-format tag and byte progress are irrelevant to the control flow
verified here and are folded into these two fields (`pyglossary/entry.py`). -/
structure Entry where
  word : String
  defi : String
  deriving DecidableEq, Repr

/-- Python truthiness of an `Optional[bool]` value: only `True` is truthy
(`None` and `False` are falsy). -/
def truthy : Option Bool → Bool
  | some true => true
  | _ => false

/-- Python truthiness of an `Optional[str]` value: `None` and `""` are falsy. -/
def strTruthy : Option String → Bool
  | none => false
  | some s => !(s == "")

/-- Sort-on-write policy flags from `pyglossary/flags.py`: four distinct
constants compared by identity. -/
inductive SortOnWrite
  | ALWAYS
  | DEFAULT_YES
  | DEFAULT_NO
  | NEVER
  deriving DecidableEq, Repr

/-- The slice of a plugin descriptor (`plugin_prop.py`, an external
collaborator of the engine) used by the write/sort pipeline. -/
structure PluginProp where
  name : String
  canWrite : Bool
  sortOnWrite : SortOnWrite
  sortKeyName : Option String
  sortEncoding : Option String
  deriving Repr

/-- `Glossary._checkSortFlag` (glossary_v2.py:836-862): resolve the effective
sort flag from the output plugin's `sortOnWrite` policy and the user's `sort`
argument.  Returns the resolved flag together with the warnings logged. -/
def checkSortFlag (plugin : PluginProp) (sort : Option Bool) :
    Bool × List String :=
  if plugin.sortOnWrite = .ALWAYS then
    if sort = some false then
      (true, [s!"Writing {plugin.name} requires sorting, ignoring user sort=False option"])
    else
      (true, [])
  else if plugin.sortOnWrite = .NEVER then
    if truthy sort then
      (false, ["Plugin prevents sorting before write, ignoring user sort=True option"])
    else
      (false, [])
  else if plugin.sortOnWrite = .DEFAULT_YES then
    (truthy sort || sort == none, [])
  else
    (truthy sort, [])

/-- An entry filter: a class name plus the `run` method, which returns the
transformed entry, or `none` to drop it (`entry_filters.py` interface). -/
structure EFilter where
  name : String
  run : Entry → Option Entry

/-- The inner loop of `Glossary._applyEntryFiltersGen` (glossary_v2.py:302-305)
on one entry: push the entry through the filters in order, stopping at the
first filter that returns `None`.  Returns the final result together with the
names of the filters that were actually run (the trace). -/
def runEntryFilters : List EFilter → Entry → Option Entry × List String
  | [], e => (some e, [])
  | f :: fs, e =>
    match f.run e with
    | none => (none, [f.name])
    | some e2 =>
      let r := runEntryFilters fs e2
      (r.1, f.name :: r.2)

/-- `Glossary._applyEntryFiltersGen` (glossary_v2.py:295-307): filter a
source stream (which may contain `None` items) through the chain, yielding
exactly the entries that survive every filter. -/
def applyEntryFiltersGen (filters : List EFilter) :
    List (Option Entry) → List Entry
  | [] => []
  | none :: rest => applyEntryFiltersGen filters rest
  | some e :: rest =>
    match (runEntryFilters filters e).1 with
    | none => applyEntryFiltersGen filters rest
    | some e2 => e2 :: applyEntryFiltersGen filters rest

/-- Specification-side reading of the chain: the cumulative transformation of
an entry by the filters in order, as a monadic fold over `Option`. -/
def foldChain (filters : List EFilter) (e : Entry) : Option Entry :=
  filters.foldlM (fun acc f => f.run acc) e

theorem runEntryFilters_fst (filters : List EFilter) (e : Entry) :
    (runEntryFilters filters e).1 = foldChain filters e := by
  induction filters generalizing e with
  | nil => simp [runEntryFilters, foldChain]
  | cons f fs ih =>
    simp only [runEntryFilters, foldChain, List.foldlM_cons]
    cases h : f.run e with
    | none => simp
    | some e2 => simpa [foldChain] using ih e2

theorem foldChain_append (l1 l2 : List EFilter) (e : Entry) :
    foldChain (l1 ++ l2) e = (foldChain l1 e).bind (foldChain l2) := by
  induction l1 generalizing e with
  | nil => simp [foldChain]
  | cons f fs ih =>
    simp only [foldChain, List.cons_append, List.foldlM_cons]
    cases h : f.run e with
    | none => simp
    | some e2 => simp [foldChain, ih e2]

theorem runEntryFilters_trace_append (l1 l2 : List EFilter) (e e2 : Entry)
    (h : foldChain l1 e = some e2) :
    (runEntryFilters (l1 ++ l2) e).2
      = l1.map EFilter.name ++ (runEntryFilters l2 e2).2 := by
  induction l1 generalizing e with
  | nil =>
    obtain rfl : e = e2 := by simpa [foldChain] using h
    simp
  | cons f fs ih =>
    simp only [foldChain, List.foldlM_cons] at h
    cases hr : f.run e with
    | none => simp [hr] at h
    | some e3 =>
      rw [hr] at h
      simp only [List.cons_append, runEntryFilters, hr, List.map_cons,
        List.cons_append, List.append_eq]
      rw [ih e3 (by simpa [foldChain] using h)]

/-- Claim C5: `_applyEntryFiltersGen` yields exactly the entries for which
every filter in chain order returned a non-`None` result, each yielded entry
being the cumulative transformation by the filters in order (a); it
short-circuits the remaining filters as soon as one filter returns `None`:
the filters actually run are the preceding ones plus the dropping one, the
entry is dropped rather than raising (b); and the output stream contains no
`None` item (c). -/
theorem c5_applyEntryFiltersGen_spec (filters : List EFilter)
    (gen : List (Option Entry)) :
    (applyEntryFiltersGen filters gen
        = gen.filterMap (fun oe => oe.bind (foldChain filters)))
    ∧ (∀ pre f post e e2, filters = pre ++ f :: post →
        foldChain pre e = some e2 → f.run e2 = none →
        (runEntryFilters filters e).1 = none
          ∧ (runEntryFilters filters e).2 = pre.map EFilter.name ++ [f.name])
    ∧ (∀ oe ∈ (applyEntryFiltersGen filters gen).map some, oe ≠ none) := by
  refine ⟨?_, ?_, ?_⟩
  · induction gen with
    | nil => simp [applyEntryFiltersGen]
    | cons oe rest ih =>
      cases oe with
      | none => simpa [applyEntryFiltersGen] using ih
      | some e =>
        simp only [applyEntryFiltersGen, runEntryFilters_fst,
          List.filterMap_cons, Option.bind_some]
        cases h : foldChain filters e with
        | none => simpa [h] using ih
        | some e2 => simpa [h] using ih
  · intro pre f post e e2 hsplit hpre hdrop
    subst hsplit
    constructor
    · rw [runEntryFilters_fst, foldChain_append, hpre]
      simp [foldChain, hdrop]
    · rw [runEntryFilters_trace_append pre (f :: post) e e2 hpre]
      simp [runEntryFilters, hdrop]
  · intro oe hmem
    simp only [List.mem_map] at hmem
    obtain ⟨e, _, rfl⟩ := hmem
    simp

/-- Witness for C5 at a concrete chain: a keep-everything filter followed by a
dropping filter and a never-reached marker filter. -/
theorem c5_applyEntryFiltersGen_spec_witness :
    (runEntryFilters
        [⟨"keep", fun e => some e⟩,
         ⟨"dropAll", fun _ => none⟩,
         ⟨"marker", fun e => some e⟩]
        ⟨"cat", "feline"⟩).1 = none
    ∧ (runEntryFilters
        [⟨"keep", fun e => some e⟩,
         ⟨"dropAll", fun _ => none⟩,
         ⟨"marker", fun e => some e⟩]
        ⟨"cat", "feline"⟩).2 = ["keep", "dropAll"] := by
  have h := (c5_applyEntryFiltersGen_spec
      [⟨"keep", fun e => some e⟩,
       ⟨"dropAll", fun _ => none⟩,
       ⟨"marker", fun e => some e⟩] []).2.1
      [⟨"keep", fun e => some e⟩]
      ⟨"dropAll", fun _ => none⟩
      [⟨"marker", fun e => some e⟩]
      ⟨"cat", "feline"⟩ ⟨"cat", "feline"⟩ rfl rfl rfl
  simpa using h

/-- Claim C2: for every output plugin and user sort argument, `_checkSortFlag`
resolves the effective sort flag as: `True` under ALWAYS (with a warning
exactly when the user passed `sort=False`), `False` under NEVER (with a
warning exactly when the user passed `sort=True`), `True` under DEFAULT_YES
unless the user passed `sort=False`, and `True` under DEFAULT_NO exactly when
the user passed a truthy sort. -/
theorem c2_checkSortFlag_spec (name : String) (canW : Bool)
    (skn se : Option String) (sort : Option Bool) :
    ((checkSortFlag ⟨name, canW, .ALWAYS, skn, se⟩ sort).1 = true
      ∧ ((checkSortFlag ⟨name, canW, .ALWAYS, skn, se⟩ sort).2 ≠ []
            ↔ sort = some false))
    ∧ ((checkSortFlag ⟨name, canW, .NEVER, skn, se⟩ sort).1 = false
      ∧ ((checkSortFlag ⟨name, canW, .NEVER, skn, se⟩ sort).2 ≠ []
            ↔ sort = some true))
    ∧ ((checkSortFlag ⟨name, canW, .DEFAULT_YES, skn, se⟩ sort).1 = true
          ↔ sort ≠ some false)
    ∧ ((checkSortFlag ⟨name, canW, .DEFAULT_NO, skn, se⟩ sort).1 = true
          ↔ sort = some true) := by
  rcases sort with _ | (_ | _) <;> simp [checkSortFlag, truthy]

/-- A configuration value: Python bool or string (the only value shapes the
verified code inspects).  Truthiness mirrors Python. -/
inductive ConfigVal
  | bool (b : Bool)
  | str (s : String)
  deriving DecidableEq, Repr

/-- Python truthiness of a configuration value. -/
def ConfigVal.truthyV : ConfigVal → Bool
  | .bool b => b
  | .str s => !(s == "")

/-- The configuration dictionary `self._config`: a finite map from keys to
values, queried with `config.get(key, default)`. -/
def Config : Type := String → Option ConfigVal

/-- `config.get(key, default)`. -/
def Config.get (c : Config) (key : String) (default : ConfigVal) : ConfigVal :=
  (c key).getD default

/-- `config[key] = value`. -/
def Config.set (c : Config) (key : String) (v : ConfigVal) : Config :=
  fun k => if k = key then some v else c k

/-- One row of the `entryFiltersRules` table (`entry_filters.py`, an external
table): an optional `(config key, default value)` rule and the filter class it
enables.  The class is represented by its `name` attribute and `run`
behavior; constructor arguments do not affect the name. -/
structure FilterRule where
  configRule : Option (String × ConfigVal)
  filterClass : EFilter

/-- The per-rule selection in the first loop of
`Glossary.updateEntryFilters` (glossary_v2.py:196-205): a rule with a config
key is skipped when the configured value is falsy; otherwise the rule's
filter class is instantiated. -/
def selectRule (config : Config) (r : FilterRule) : Option EFilter :=
  match r.configRule with
  | none => some r.filterClass
  | some (param, default) =>
    if (config.get param default).truthyV then some r.filterClass else none

/-- `Glossary.updateEntryFilters` (glossary_v2.py:192-223), over the rule
table of `entry_filters.py` passed as a parameter: rebuild the filter chain
from configuration, append the progress-bar filter when progress is enabled
and the memory-usage filter at trace log level with psutil available, then
register the set of the chain's filter names. -/
def updateEntryFilters (rules : List FilterRule) (config : Config)
    (hasProgress traceWithPsutil : Bool) (progressFilter memFilter : EFilter) :
    List EFilter × List String :=
  let fromRules := rules.filterMap (selectRule config)
  let withProgress :=
    if hasProgress then fromRules ++ [progressFilter] else fromRules
  let entryFilters :=
    if traceWithPsutil then withProgress ++ [memFilter] else withProgress
  (entryFilters, (entryFilters.map EFilter.name).dedup)

/-- `Glossary._addExtraEntryFilter` (glossary_v2.py:234-238): append a filter
class to the chain unless its name is already registered; register its name. -/
def addExtraEntryFilter (entryFilters : List EFilter)
    (entryFiltersName : List String) (cls : EFilter) :
    List EFilter × List String :=
  if cls.name ∈ entryFiltersName then (entryFilters, entryFiltersName)
  else (entryFilters ++ [cls], entryFiltersName ++ [cls.name])

theorem selectRule_eq_some (config : Config) (r : FilterRule) (f : EFilter)
    (h : selectRule config r = some f) : f = r.filterClass := by
  obtain ⟨cr, fc⟩ := r
  cases cr with
  | none =>
    simp only [selectRule] at h
    exact (Option.some.inj h).symm
  | some pd =>
    obtain ⟨param, default⟩ := pd
    simp only [selectRule] at h
    by_cases ht : (Config.get config param default).truthyV = true
    · rw [if_pos ht] at h
      exact (Option.some.inj h).symm
    · rw [if_neg ht] at h
      cases h

theorem filterMap_selectRule_names_sublist (config : Config)
    (rules : List FilterRule) :
    List.Sublist ((rules.filterMap (selectRule config)).map EFilter.name)
      (rules.map fun r => r.filterClass.name) := by
  induction rules with
  | nil => simp
  | cons r rest ih =>
    rw [List.filterMap_cons]
    cases h : selectRule config r with
    | none =>
      simp only [List.map_cons]
      exact List.sublist_cons_of_sublist r.filterClass.name ih
    | some f =>
      have hf := selectRule_eq_some config r f h
      subst hf
      show List.Sublist
        (List.map EFilter.name
          (r.filterClass :: rest.filterMap (selectRule config))) _
      simp only [List.map_cons]
      exact List.Sublist.cons₂ r.filterClass.name ih

theorem runEntryFilters_trace_sublist (fs : List EFilter) (e : Entry) :
    List.Sublist (runEntryFilters fs e).2 (fs.map EFilter.name) := by
  induction fs generalizing e with
  | nil => simp [runEntryFilters]
  | cons f rest ih =>
    cases h : f.run e with
    | none =>
      show List.Sublist (runEntryFilters (f :: rest) e).2 _
      simp only [runEntryFilters, h, List.map_cons]
      exact List.Sublist.cons₂ f.name (List.nil_sublist _)
    | some e2 =>
      show List.Sublist (runEntryFilters (f :: rest) e).2 _
      simp only [runEntryFilters, h, List.map_cons]
      exact List.Sublist.cons₂ f.name (ih e2)

theorem updateEntryFilters_names_sublist (rules : List FilterRule)
    (config : Config) (hasProgress traceWithPsutil : Bool)
    (progressFilter memFilter : EFilter) :
    List.Sublist
      ((updateEntryFilters rules config hasProgress traceWithPsutil
          progressFilter memFilter).1.map EFilter.name)
      ((rules.map fun r => r.filterClass.name)
        ++ [progressFilter.name, memFilter.name]) := by
  have hbase := filterMap_selectRule_names_sublist config rules
  have hpm : List.Sublist [progressFilter.name]
      [progressFilter.name, memFilter.name] :=
    List.Sublist.cons₂ _ (List.nil_sublist _)
  have hm : List.Sublist [memFilter.name]
      [progressFilter.name, memFilter.name] :=
    List.sublist_cons_of_sublist _ (List.Sublist.refl _)
  unfold updateEntryFilters
  cases hasProgress <;> cases traceWithPsutil <;>
    simp only [Bool.false_eq_true, if_true, if_false, ite_true, ite_false,
      List.map_append, List.map_cons, List.map_nil, List.append_assoc,
      List.cons_append, List.nil_append]
  · exact hbase.trans (List.sublist_append_left _ _)
  · exact List.Sublist.append hbase hm
  · exact List.Sublist.append hbase hpm
  · exact List.Sublist.append hbase (List.Sublist.refl _)


theorem updateEntryFilters_snd (rules : List FilterRule) (config : Config)
    (hasProgress traceWithPsutil : Bool) (progressFilter memFilter : EFilter) :
    (updateEntryFilters rules config hasProgress traceWithPsutil
        progressFilter memFilter).2
      = ((updateEntryFilters rules config hasProgress traceWithPsutil
        progressFilter memFilter).1.map EFilter.name).dedup := rfl

/-- Claim C4: the entry-filter chain never contains two filters with the same
name.  After `updateEntryFilters` the registered name set has exactly the
names of the chain (a); assuming the filter classes of the rule table and the
two built-in extras carry pairwise distinct names, the chain's names are
pairwise distinct (b); `_addExtraEntryFilter` with an already-registered name
leaves chain and name set unchanged (c); after any `_addExtraEntryFilter` the
chain names are still pairwise distinct (d); hence no filter name is applied
twice to any entry (e). -/
theorem c4_filter_chain_dedup (rules : List FilterRule) (config : Config)
    (hasProgress traceWithPsutil : Bool) (progressFilter memFilter : EFilter)
    (cls : EFilter) (e : Entry) (chain : List EFilter) (names : List String)
    (hu : updateEntryFilters rules config hasProgress traceWithPsutil
        progressFilter memFilter = (chain, names))
    (hnodup : ((rules.map fun r => r.filterClass.name)
        ++ [progressFilter.name, memFilter.name]).Nodup) :
    (∀ n, n ∈ names ↔ n ∈ chain.map EFilter.name)
    ∧ (chain.map EFilter.name).Nodup
    ∧ (cls.name ∈ names → addExtraEntryFilter chain names cls = (chain, names))
    ∧ ((addExtraEntryFilter chain names cls).1.map EFilter.name).Nodup
    ∧ (runEntryFilters (addExtraEntryFilter chain names cls).1 e).2.Nodup := by
  have h1 : (updateEntryFilters rules config hasProgress traceWithPsutil
      progressFilter memFilter).1 = chain := congrArg Prod.fst hu
  have h2 : (updateEntryFilters rules config hasProgress traceWithPsutil
      progressFilter memFilter).2 = names := congrArg Prod.snd hu
  have hnames : names = (chain.map EFilter.name).dedup := by
    rw [← h2, updateEntryFilters_snd, h1]
  have hchainNodup : (chain.map EFilter.name).Nodup := by
    refine List.Nodup.sublist ?_ hnodup
    rw [← h1]
    exact updateEntryFilters_names_sublist rules config hasProgress
      traceWithPsutil progressFilter memFilter
  have hmemIff : ∀ n, n ∈ names ↔ n ∈ chain.map EFilter.name := by
    intro n
    rw [hnames]
    exact List.mem_dedup
  have hextraNodup : ((addExtraEntryFilter chain names cls).1.map
      EFilter.name).Nodup := by
    unfold addExtraEntryFilter
    by_cases hmem : cls.name ∈ names
    · rw [if_pos hmem]
      exact hchainNodup
    · rw [if_neg hmem]
      simp only [List.map_append, List.map_cons, List.map_nil]
      refine List.Nodup.append hchainNodup (List.nodup_singleton _) ?_
      intro a ha hb
      simp only [List.mem_singleton] at hb
      subst hb
      exact hmem ((hmemIff _).2 ha)
  refine ⟨hmemIff, hchainNodup, ?_, hextraNodup, ?_⟩
  · intro hmem
    unfold addExtraEntryFilter
    rw [if_pos hmem]
  · exact List.Nodup.sublist
      (runEntryFilters_trace_sublist (addExtraEntryFilter chain names cls).1 e)
      hextraNodup

/-- Witness for C4 at a concrete configuration: one rule-driven filter, no
progress or memory filter, and an extra filter whose name is already
registered. -/
theorem c4_filter_chain_dedup_witness :
    addExtraEntryFilter [⟨"lower", fun e => some e⟩] ["lower"]
        ⟨"lower", fun _ => none⟩
      = ([⟨"lower", fun e => some e⟩], ["lower"])
    ∧ (runEntryFilters
        (addExtraEntryFilter [⟨"lower", fun e => some e⟩] ["lower"]
          ⟨"lower", fun _ => none⟩).1 ⟨"cat", "feline"⟩).2.Nodup := by
  have h := c4_filter_chain_dedup
      [⟨none, ⟨"lower", fun e => some e⟩⟩] (fun _ => none) false false
      ⟨"pbar", fun e => some e⟩ ⟨"maxmem", fun e => some e⟩
      ⟨"lower", fun _ => none⟩ ⟨"cat", "feline"⟩
      [⟨"lower", fun e => some e⟩] ["lower"] rfl (by simp)
  exact ⟨h.2.2.1 (by simp), h.2.2.2.2⟩

/-- Python exceptions distinguished by the engine's handlers. -/
inductive PyExc
  | fileNotFound (msg : String)
  | lookupError (msg : String)
  | valueError (msg : String)
  | stopIteration
  | otherExc (msg : String)
  deriving DecidableEq, Repr

/-- A writer-side sink: the suspendable generator obtained from a writer's
`write()` method, abstracted by the number of `send` calls its body consumes
before returning; one further `send` raises `StopIteration`. -/
structure Sink where
  capacity : Nat
  deriving DecidableEq, Repr

/-- A signal sent to a sink generator: the begin signal (`send(None)` before
any entry), one entry, or the end signal (`send(None)` after the last
entry). -/
inductive Sig
  | begin
  | ent (e : Entry)
  | done
  deriving DecidableEq, Repr

/-- One send event of the write driver: which sink (by position in `genList`)
was sent which signal. -/
structure SendEv where
  sink : Nat
  sig : Sig
  deriving DecidableEq, Repr

/-- Send the signal with index `j` (0 for begin, `k + 1` for the `k`-th entry)
to the sinks `sinks`, numbered from `i`, in order.  A sink whose generator
already consumed `capacity` signals raises `StopIteration`, aborting the
loop; the events record the sends attempted, the raising one included. -/
def deliverFrom (i : Nat) (sinks : List Sink) (sig : Sig) (j : Nat) :
    List SendEv × Bool :=
  match sinks with
  | [] => ([], false)
  | s :: rest =>
    if j < s.capacity then
      let r := deliverFrom (i + 1) rest sig j
      (⟨i, sig⟩ :: r.1, r.2)
    else ([⟨i, sig⟩], true)

/-- The begin and entry loops of `_writeEntries` (glossary_v2.py:715-719):
deliver the signals in order, each one to every sink, stopping at an escaped
`StopIteration`. -/
def deliverAllSignals (genList : List Sink) (sigs : List Sig) (j : Nat) :
    List SendEv × Bool :=
  match sigs with
  | [] => ([], false)
  | sig :: rest =>
    let d := deliverFrom 0 genList sig j
    if d.2 then (d.1, true)
    else
      let r := deliverAllSignals genList rest (j + 1)
      (d.1 ++ r.1, r.2)

/-- The final loop of `_writeEntries` (glossary_v2.py:721-723): send the end
signal to every sink, suppressing `StopIteration` for each sink
individually. -/
def deliverFinal (i : Nat) (sinks : List Sink) : List SendEv :=
  match sinks with
  | [] => []
  | _ :: rest => ⟨i, .done⟩ :: deliverFinal (i + 1) rest

/-- The driver loops of `Glossary._writeEntries` (glossary_v2.py:715-723) over
an already-built `genList`: `gen.send(None)` to every sink, then each entry
of the source iterator to every sink in the same fixed order, then the end
signal to every sink with `StopIteration` suppressed. -/
def writeEntriesLoops (genList : List Sink) (entries : List Entry) :
    List SendEv × Except PyExc Unit :=
  let main := deliverAllSignals genList (Sig.begin :: entries.map Sig.ent) 0
  if main.2 then (main.1, .error .stopIteration)
  else (main.1 ++ deliverFinal 0 genList, .ok ())

/-- `Glossary._writeEntries` (glossary_v2.py:695-725): build `genList` from
the primary writer's `write()` generator (skipped, with an error log, when
`write()` is not a generator) plus, when `save_info_json` is configured, the
Info side writer's generator, then run the driver loops.  Returns the built
`genList` together with the send events and the outcome. -/
def writeEntriesM (config : Config) (primaryGen : Option Sink)
    (infoGen : Sink) (entries : List Entry) :
    List Sink × List SendEv × Except PyExc Unit :=
  let genList0 : List Sink :=
    match primaryGen with
    | none => []
    | some g => [g]
  let genList :=
    if (config.get "save_info_json" (.bool false)).truthyV then
      genList0 ++ [infoGen]
    else
      genList0
  (genList, writeEntriesLoops genList entries)

theorem deliverFrom_ok (sinks : List Sink) (sig : Sig) (j i : Nat)
    (h : ∀ s ∈ sinks, j < s.capacity) :
    deliverFrom i sinks sig j
      = ((List.range' i sinks.length).map (fun k => ⟨k, sig⟩), false) := by
  induction sinks generalizing i with
  | nil => simp [deliverFrom]
  | cons s rest ih =>
    have hs : j < s.capacity := h s (List.mem_cons_self s rest)
    rw [List.length_cons, List.range'_succ, List.map_cons]
    simp only [deliverFrom, if_pos hs,
      ih (i + 1) (fun x hx => h x (List.mem_cons_of_mem s hx))]

theorem deliverFinal_eq (sinks : List Sink) (i : Nat) :
    deliverFinal i sinks
      = (List.range' i sinks.length).map (fun k => ⟨k, .done⟩) := by
  induction sinks generalizing i with
  | nil => simp [deliverFinal]
  | cons s rest ih =>
    rw [List.length_cons, List.range'_succ, List.map_cons]
    simp only [deliverFinal, ih (i + 1)]

theorem deliverAllSignals_ok (genList : List Sink) (sigs : List Sig) (j : Nat)
    (h : ∀ s ∈ genList, j + sigs.length ≤ s.capacity) :
    deliverAllSignals genList sigs j
      = (sigs.flatMap (fun sig =>
          (List.range genList.length).map (fun k => ⟨k, sig⟩)), false) := by
  induction sigs generalizing j with
  | nil => simp [deliverAllSignals]
  | cons sig rest ih =>
    have hj : ∀ s ∈ genList, j < s.capacity := by
      intro s hs
      have hc := h s hs
      simp only [List.length_cons] at hc
      omega
    have hrest : ∀ s ∈ genList, (j + 1) + rest.length ≤ s.capacity := by
      intro s hs
      have hc := h s hs
      simp only [List.length_cons] at hc
      omega
    simp only [deliverAllSignals, deliverFrom_ok genList sig j 0 hj,
      ih (j + 1) hrest, List.flatMap_cons, List.range_eq_range',
      Bool.false_eq_true, if_false]

theorem filter_sendBlock (n k : Nat) (sig : Sig) (hk : k < n) :
    ((List.range n).map (fun j => (⟨j, sig⟩ : SendEv))).filter
        (fun ev => ev.sink == k) = [⟨k, sig⟩] := by
  induction n with
  | zero => omega
  | succ m ih =>
    rw [List.range_succ, List.map_append, List.filter_append]
    by_cases h : k = m
    · subst h
      have hnil : ((List.range k).map (fun j => (⟨j, sig⟩ : SendEv))).filter
          (fun ev => ev.sink == k) = [] := by
        rw [List.filter_eq_nil_iff]
        intro ev hev
        simp only [List.mem_map, List.mem_range] at hev
        obtain ⟨j, hj, rfl⟩ := hev
        simp [Nat.ne_of_lt hj]
      rw [hnil]
      simp
    · have hk2 : k < m := by omega
      rw [ih hk2]
      have hmk : m ≠ k := fun hc => h hc.symm
      have hnil2 : (([(⟨m, sig⟩ : SendEv)]).filter
          (fun ev => ev.sink == k)) = [] := by
        simp [hmk]
      simp only [List.map_cons, List.map_nil]
      rw [hnil2]
      simp

theorem filterFlatMap {α β : Type} (l : List α) (f : α → List β)
    (p : β → Bool) :
    (l.flatMap f).filter p = l.flatMap (fun a => (f a).filter p) := by
  induction l with
  | nil => simp
  | cons a rest ih => simp [List.flatMap_cons, List.filter_append, ih]

theorem flatMapMap {α β γ : Type} (l : List α) (f : α → β) (F : β → List γ) :
    (l.map f).flatMap F = l.flatMap (fun a => F (f a)) := by
  induction l with
  | nil => simp
  | cons a rest ih => simp [List.flatMap_cons, ih]

theorem flatMapSingleton {α β : Type} (l : List α) (g : α → β) :
    l.flatMap (fun a => [g a]) = l.map g := by
  induction l with
  | nil => rfl
  | cons a rest ih => simp [List.flatMap_cons, ih]

/-- Claim C9: with one or more sink generators (the primary writer first,
plus the optional Info side writer), `_writeEntries` sends the begin signal
to every sink, then each entry of the source iterator to every sink in the
same fixed sink order, then the end signal to every sink; a sink whose
generator ends early (raising `StopIteration`) on that final send is treated
as normal completion; and every sink receives the exact same signal
sequence. -/
theorem c9_writeEntries_spec (config : Config) (g infoGen : Sink)
    (entries : List Entry) (genList : List Sink)
    (hg : (writeEntriesM config (some g) infoGen entries).1 = genList)
    (hcap : ∀ s ∈ genList, entries.length + 1 ≤ s.capacity) :
    genList.head? = some g
    ∧ (writeEntriesM config (some g) infoGen entries).2.2 = .ok ()
    ∧ (writeEntriesM config (some g) infoGen entries).2.1
        = (List.range genList.length).map (fun k => ⟨k, .begin⟩)
          ++ entries.flatMap (fun e =>
              (List.range genList.length).map (fun k => ⟨k, .ent e⟩))
          ++ (List.range genList.length).map (fun k => ⟨k, .done⟩)
    ∧ ∀ k, k < genList.length →
        (((writeEntriesM config (some g) infoGen entries).2.1.filter
            (fun ev => ev.sink == k)).map SendEv.sig)
          = Sig.begin :: (entries.map Sig.ent ++ [Sig.done]) := by
  have hhead : genList.head? = some g := by
    rw [← hg]
    unfold writeEntriesM
    by_cases hs : (Config.get config "save_info_json" (.bool false)).truthyV
      = true
    · simp [hs]
    · simp [hs]
  have hG : (writeEntriesM config (some g) infoGen entries).2
      = writeEntriesLoops genList entries := by
    rw [← hg]
    rfl
  have hsigs : ∀ s ∈ genList,
      0 + (Sig.begin :: entries.map Sig.ent).length ≤ s.capacity := by
    intro s hs
    have hc := hcap s hs
    simp only [List.length_cons, List.length_map]
    omega
  have hmain := deliverAllSignals_ok genList
    (Sig.begin :: entries.map Sig.ent) 0 hsigs
  have hloops : writeEntriesLoops genList entries
      = ((Sig.begin :: entries.map Sig.ent).flatMap (fun sig =>
            (List.range genList.length).map (fun k => ⟨k, sig⟩))
          ++ deliverFinal 0 genList, .ok ()) := by
    unfold writeEntriesLoops
    simp only [hmain, Bool.false_eq_true, if_false]
  have htrace : (writeEntriesM config (some g) infoGen entries).2.1
      = (List.range genList.length).map (fun k => (⟨k, .begin⟩ : SendEv))
        ++ entries.flatMap (fun e =>
            (List.range genList.length).map (fun k => ⟨k, .ent e⟩))
        ++ (List.range genList.length).map (fun k => ⟨k, .done⟩) := by
    rw [hG, hloops]
    simp only [List.flatMap_cons, flatMapMap]
    rw [deliverFinal_eq, ← List.range_eq_range']
  refine ⟨hhead, ?_, htrace, ?_⟩
  · rw [hG, hloops]
  · intro k hk
    rw [htrace]
    rw [List.filter_append, List.filter_append]
    rw [filter_sendBlock genList.length k Sig.begin hk,
      filter_sendBlock genList.length k Sig.done hk]
    rw [filterFlatMap]
    have hsb := fun e => filter_sendBlock genList.length k (Sig.ent e) hk
    simp only [hsb, flatMapSingleton]
    simp [List.map_append, List.map_map]

/-- Witness for C9: one primary sink whose generator consumes exactly
`len(entries) + 1` sends, so the final end-signal raises `StopIteration`,
which is suppressed;  `save_info_json` is unset so `genList` is the primary
sink alone. -/
theorem c9_writeEntries_spec_witness :
    (writeEntriesM (fun _ => none) (some ⟨2⟩) ⟨5⟩ [⟨"a", "b"⟩]).2.2 = .ok ()
    ∧ (((writeEntriesM (fun _ => none) (some ⟨2⟩) ⟨5⟩ [⟨"a", "b"⟩]).2.1.filter
        (fun ev => ev.sink == 0)).map SendEv.sig)
        = Sig.begin :: ([(⟨"a", "b"⟩ : Entry)].map Sig.ent ++ [Sig.done]) := by
  have h := c9_writeEntries_spec (fun _ => none) ⟨2⟩ ⟨5⟩ [⟨"a", "b"⟩] [⟨2⟩]
      rfl (by
        intro s hs
        rw [List.mem_singleton] at hs
        subst hs
        decide)
  exact ⟨h.2.1, h.2.2.2 0 (by decide)⟩

/-- A named sort key from the registry of `sort_keys.py` (an external
collaborator): the key name and the derived key function. -/
structure NamedSortKey where
  name : String
  key : Entry → Nat

/-- `sort_keys.defaultSortKeyName` (module not under review; the spec's §8
scenario and the legacy API use the lowercased-headword key as default). -/
def defaultSortKeyName : String := "headword_lower"

/-- A reader registered in `self._readers`: the stream of items it will
yield (a Python reader may yield `None` items). -/
structure Reader where
  items : List (Option Entry)

/-- The behavior of a reader's `open(filename)` call: it raises, returns
`None`, or returns a progress iterator that yields `(pos, total)` pairs and
then possibly raises mid-iteration. -/
inductive OpenBeh
  | raises (e : PyExc)
  | returnsNone
  | progressSeq (pairs : List (Nat × Nat)) (err : Option PyExc)

/-- The outward behavior of a plugin writer as used by `_write`: whether
`open(filename)` raises, and the `write()` generator (`none` when `write()`
is not a generator). -/
structure WriterBeh where
  openExc : Option PyExc
  gen : Option Sink

/-- The backend behind `self._data`: `glossary_utils.EntryList` in memory or
`sq_entry_list.SqEntryList` on disk. -/
inductive Backend
  | memory
  | sqlite (fpath : String)
  deriving DecidableEq, Repr

/-- The sort key bound to an `EntryList` by `setSortKey`: resolved key name,
sort encoding, and the derived key function. -/
structure SortKeyBinding where
  name : String
  sortEncoding : String
  key : Entry → Nat

/-- The entry storage `self._data`.  Modelled from the spec (§4.2; the
backend classes live in `glossary_utils.py` and `sq_entry_list.py`, outside
the reviewed files): an ordered sequence with append, a bound sort key, and
a stable sort by the bound key. -/
structure EntryList where
  backend : Backend
  entries : List Entry
  sortKey : Option SortKeyBinding

/-- Modelled from the spec (§4.2): `EntryList.append` appends in order. -/
def EntryList.appendEntry (d : EntryList) (e : Entry) : EntryList :=
  { d with entries := d.entries ++ [e] }

/-- Modelled from the spec (§4.2): `EntryList.setSortKey` binds the named
sort key and encoding. -/
def EntryList.setSortKey (d : EntryList) (nsk : NamedSortKey)
    (sortEncoding : String) : EntryList :=
  { d with sortKey := some ⟨nsk.name, sortEncoding, nsk.key⟩ }

/-- Modelled from the spec (§4.2): `EntryList.sort` stably sorts the entries
by the bound key (no-op when no key is bound). -/
def EntryList.sortData (d : EntryList) : EntryList :=
  match d.sortKey with
  | none => d
  | some sk =>
    { d with
        entries := d.entries.insertionSort (fun a b => sk.key a ≤ sk.key b) }

/-- What the filesystem says a path is (the `isfile`/`isdir` checks). -/
inductive PathKind
  | file
  | dir
  | missing
  deriving DecidableEq, Repr

/-- Logged messages and externally observable pipeline actions, in order. -/
inductive Ev
  | warn (msg : String)
  | crit (msg : String)
  | infoL (msg : String)
  | errorL (msg : String)
  | excL (msg : String)
  | readerCreated
  | readerOpened
  | readerClosed
  | writerCreated
  | writerOpened
  | dataSorted
  | backendSwitched (fpath : String)
  | sortKeyBound (name : String) (encoding : String)
  | tmpDirCreated
  | removedFile (p : String)
  | removeFileFailed (p : String)
  | removedDir (p : String)
  | noSuchPath (p : String)
  | keptPaths (paths : List String)
  | compressed (p : String)
  deriving DecidableEq, Repr

/-- The mutable `Glossary` object state relevant to the verified conversion
pipeline (`glossary_v2.py` fields `_data`, `_readers`, `_entryFilters`,
`_entryFiltersName`, `_config`, `_sqlite`, `_rawEntryCompress`, `_sort`,
`_cleanupPathList`, `_defiHasWordTitle`, `_info`), plus the accumulated
log. -/
structure GlosState where
  data : EntryList
  readers : List Reader
  entryFilters : List EFilter
  entryFiltersName : List String
  config : Config
  sqlite : Bool
  rawEntryCompress : Bool
  sortFlag : Option Bool
  cleanupPathList : List String
  defiHasWordTitle : Bool
  info : String → Option String
  log : List Ev

/-- External collaborators of the engine, passed explicitly: the plugin
registry and format detection (`plugin_manager.py`), the sort-key registry
(`sort_keys.py`), the filesystem, and the entry-filter rule table
(`entry_filters.py`). -/
structure Env where
  plugins : String → Option PluginProp
  lookupSortKey : String → Option NamedSortKey
  detectInputFormat : String → String → Option (String × String × Option String)
  detectOutputFormat : String → String → String → Option (String × String × Option String)
  outputDirNonEmpty : String → Bool
  isfile : String → Bool
  removeOk : String → Bool
  fsKind : String → PathKind
  rules : List FilterRule
  hasProgress : Bool
  traceWithPsutil : Bool
  progressFilter : EFilter
  memFilter : EFilter

/-- The action `cleanup` performs on one registered path: files are removed
with `os.remove` (a failure is caught, logged, and the loop continues),
directories are removed with `rmtree` (`os_utils.py`, not under review;
modelled from the spec §4.7 as tolerating failures by logging and
continuing), and a missing path is logged as an error. -/
def cleanAction (env : Env) (p : String) : Ev :=
  match env.fsKind p with
  | .file => if env.removeOk p then .removedFile p else .removeFileFailed p
  | .dir => .removedDir p
  | .missing => .noSuchPath p

/-- `Glossary.cleanup` (glossary_v2.py:164-183): return immediately when no
path is registered; with config `cleanup` false, log the retained paths and
remove nothing; otherwise attempt removal of every registered path in order
and empty the registered set. -/
def cleanupM (env : Env) (st : GlosState) : GlosState :=
  if st.cleanupPathList = [] then
    st
  else if !(st.config.get "cleanup" (.bool true)).truthyV then
    { st with log := st.log
        ++ [.infoL "Not cleaning up files:", .keptPaths st.cleanupPathList] }
  else
    { st with
        cleanupPathList := [],
        log := st.log ++ st.cleanupPathList.map (cleanAction env) }

/-- Claim C7: `cleanup` is idempotent and tolerant.  When enabled and paths
are registered, it attempts removal of every registered path in order — an
individual failure is logged and the loop continues — then empties the
registered set, so a second call is a no-op.  When the `cleanup` config flag
is false it removes nothing, only logging the retained paths.  With no
registered paths it does nothing. -/
theorem c7_cleanup_spec (env : Env) (st : GlosState) :
    ((st.config.get "cleanup" (.bool true)).truthyV = true →
      st.cleanupPathList ≠ [] →
      (cleanupM env st).cleanupPathList = []
      ∧ (cleanupM env st).log = st.log ++ st.cleanupPathList.map (cleanAction env)
      ∧ (∀ p ∈ st.cleanupPathList, cleanAction env p ∈ (cleanupM env st).log)
      ∧ cleanupM env (cleanupM env st) = cleanupM env st)
    ∧ ((st.config.get "cleanup" (.bool true)).truthyV = false →
      st.cleanupPathList ≠ [] →
      cleanupM env st
        = { st with log := st.log
            ++ [.infoL "Not cleaning up files:", .keptPaths st.cleanupPathList] })
    ∧ (st.cleanupPathList = [] → cleanupM env st = st) := by
  refine ⟨?_, ?_, ?_⟩
  · intro hflag hne
    have hval : cleanupM env st
        = { st with
            cleanupPathList := [],
            log := st.log ++ st.cleanupPathList.map (cleanAction env) } := by
      unfold cleanupM
      rw [if_neg hne, hflag]
      simp
    refine ⟨by rw [hval], by rw [hval], ?_, ?_⟩
    · intro p hp
      rw [hval]
      simp only [List.mem_append, List.mem_map]
      exact Or.inr ⟨p, hp, rfl⟩
    · rw [hval]
      unfold cleanupM
      simp
  · intro hflag hne
    unfold cleanupM
    rw [if_neg hne, hflag]
    simp
  · intro hnil
    unfold cleanupM
    rw [if_pos hnil]

/-- Witness for C7: two registered paths (a file whose removal fails, then a
directory), config left at defaults so cleanup is enabled. -/
theorem c7_cleanup_spec_witness :
    (cleanupM
        ⟨fun _ => none, fun _ => none, fun _ _ => none, fun _ _ _ => none,
         fun _ => false, fun _ => false, fun _ => false,
         fun p => if p = "a" then .file else .dir,
         [], false, false, ⟨"pb", fun e => some e⟩, ⟨"mm", fun e => some e⟩⟩
        ⟨⟨.memory, [], none⟩, [], [], [], fun _ => none, false, false, none,
         ["a", "b"], false, fun _ => none, []⟩).cleanupPathList = []
    ∧ (cleanupM
        ⟨fun _ => none, fun _ => none, fun _ _ => none, fun _ _ _ => none,
         fun _ => false, fun _ => false, fun _ => false,
         fun p => if p = "a" then .file else .dir,
         [], false, false, ⟨"pb", fun e => some e⟩, ⟨"mm", fun e => some e⟩⟩
        ⟨⟨.memory, [], none⟩, [], [], [], fun _ => none, false, false, none,
         ["a", "b"], false, fun _ => none, []⟩).log
      = [.removeFileFailed "a", .removedDir "b"] := by
  have h := (c7_cleanup_spec
      ⟨fun _ => none, fun _ => none, fun _ _ => none, fun _ _ _ => none,
       fun _ => false, fun _ => false, fun _ => false,
       fun p => if p = "a" then .file else .dir,
       [], false, false, ⟨"pb", fun e => some e⟩, ⟨"mm", fun e => some e⟩⟩
      ⟨⟨.memory, [], none⟩, [], [], [], fun _ => none, false, false, none,
       ["a", "b"], false, fun _ => none, []⟩).1 rfl (by simp)
  refine ⟨h.1, ?_⟩
  rw [h.2.1]
  rfl

/-- The entries a list of readers contributes after the filter chain: each
reader's stream pushed through `_applyEntryFiltersGen`, concatenated in
reader order. -/
def drained (filters : List EFilter) (readers : List Reader) : List Entry :=
  readers.flatMap (fun r => applyEntryFiltersGen filters r.items)

/-- `Glossary.loadReader` (glossary_v2.py:616-633): drain one reader through
the filter chain into `self._data` (`addEntryObj` on each surviving entry),
closing the reader at the end. -/
def loadReader (st : GlosState) (reader : Reader) : GlosState :=
  { st with
      data := (applyEntryFiltersGen st.entryFilters reader.items).foldl
        EntryList.appendEntry st.data,
      log := st.log ++ [Ev.readerClosed] }

theorem foldl_appendEntry (l : List Entry) (d : EntryList) :
    l.foldl EntryList.appendEntry d = { d with entries := d.entries ++ l } := by
  induction l generalizing d with
  | nil => simp
  | cons e rest ih =>
    rw [List.foldl_cons, ih]
    simp [EntryList.appendEntry]

theorem foldl_loadReader (readers : List Reader) (st : GlosState) :
    readers.foldl loadReader st
      = { st with
          data := { st.data with
            entries := st.data.entries ++ drained st.entryFilters readers },
          log := st.log ++ readers.map (fun _ => Ev.readerClosed) } := by
  induction readers generalizing st with
  | nil => simp [drained]
  | cons r rest ih =>
    rw [List.foldl_cons, ih]
    simp [loadReader, foldl_appendEntry, drained, List.flatMap_cons,
      List.append_assoc]

/-- Lines 755-761 of `Glossary._write`: when readers are still pending and
sorting was requested, warn about the fallback to indirect mode, drain every
pending reader into `self._data`, and empty the reader list. -/
def writeDrainPhase (st : GlosState) (sort : Option Bool) : GlosState :=
  if !st.readers.isEmpty && truthy sort then
    let stW := { st with log := st.log
        ++ [Ev.warn "Full sort enabled, falling back to indirect mode"] }
    let stD := stW.readers.foldl loadReader stW
    { stD with readers := [] }
  else st

/-- `Glossary.clear` (glossary_v2.py:113-135), as run from `_write`'s
`finally` clause: reset data, readers, filters and flags.  The log is the
conversion's event history, not object state, and is kept. -/
def clearState (st : GlosState) : GlosState :=
  { st with
      data := { st.data with entries := [] },
      readers := [],
      entryFilters := [],
      entryFiltersName := [],
      sortFlag := some false,
      defiHasWordTitle := false,
      info := fun _ => none }

/-- `Glossary._write` after the reader-drain step (glossary_v2.py:763-801):
log, create the writer, store the sort flag, sort the buffered data when
requested, choose the entry iterator, open the writer (failures caught like
in `_openReader`), run `_writeEntries` (exceptions caught and logged), and
finally `finish`/`clear`. -/
def writeAfterDrain (st : GlosState) (filename format : String)
    (sort : Option Bool) (writer : WriterBeh) (infoGen : Sink) :
    GlosState × List SendEv × Option String :=
  let st2 := { st with
      log := st.log ++ [Ev.infoL s!"Writing to {format} file", Ev.writerCreated],
      sortFlag := sort }
  let st3 :=
    if truthy sort then
      { st2 with data := st2.data.sortData, log := st2.log ++ [Ev.dataSorted] }
    else st2
  let entryStream :=
    if !st3.readers.isEmpty then drained st3.entryFilters st3.readers
    else st3.data.entries
  match writer.openExc with
  | some (PyExc.fileNotFound msg) =>
    ({ st3 with log := st3.log ++ [Ev.crit msg] }, [], none)
  | some (PyExc.lookupError msg) =>
    ({ st3 with log := st3.log ++ [Ev.crit msg] }, [], none)
  | some (PyExc.valueError msg) =>
    ({ st3 with log := st3.log ++ [Ev.excL msg] }, [], none)
  | some PyExc.stopIteration =>
    ({ st3 with log := st3.log ++ [Ev.excL ""] }, [], none)
  | some (PyExc.otherExc msg) =>
    ({ st3 with log := st3.log ++ [Ev.excL msg] }, [], none)
  | none =>
    let st4 := { st3 with log := st3.log ++ [Ev.writerOpened] }
    let w := writeEntriesM st4.config writer.gen infoGen entryStream
    match w.2.2 with
    | Except.error _ =>
      (clearState { st4 with log := st4.log
          ++ [Ev.excL "Exception while calling plugin write function"] },
        w.2.1, none)
    | Except.ok _ => (clearState st4, w.2.1, some filename)

/-- `Glossary._write` (glossary_v2.py:742-801): check the output plugin, run
the reader-drain step, then the rest of the write. -/
def writeM (env : Env) (st : GlosState) (filename format : String)
    (sort : Option Bool) (writer : WriterBeh) (infoGen : Sink) :
    GlosState × List SendEv × Option String :=
  match env.plugins format with
  | none =>
    ({ st with log := st.log
        ++ [Ev.crit s!"No Writer class found for plugin {format}"] }, [], none)
  | some plugin =>
    if !plugin.canWrite then
      ({ st with log := st.log
          ++ [Ev.crit s!"No Writer class found for plugin {format}"] }, [], none)
    else
      writeAfterDrain (writeDrainPhase st sort) filename format sort writer
        infoGen

/-- Claim C3: whenever a write begins with sorting enabled while the
glossary still holds open readers (streaming mode), `_write` first logs the
indirect-mode fallback warning and fully drains every pending reader through
the filter chain into the buffered `EntryList`, in reader order, and empties
the reader list; the sort and the write then proceed on the drained
state. -/
theorem c3_write_drains_readers (env : Env) (st : GlosState)
    (filename format : String) (sort : Option Bool) (writer : WriterBeh)
    (infoGen : Sink) (plugin : PluginProp)
    (hreaders : st.readers ≠ []) (hsort : truthy sort = true)
    (hplugin : env.plugins format = some plugin)
    (hcanWrite : plugin.canWrite = true) :
    (writeDrainPhase st sort).data.entries
      = st.data.entries ++ drained st.entryFilters st.readers
    ∧ (writeDrainPhase st sort).readers = []
    ∧ (writeDrainPhase st sort).log
      = st.log ++ Ev.warn "Full sort enabled, falling back to indirect mode"
          :: st.readers.map (fun _ => Ev.readerClosed)
    ∧ writeM env st filename format sort writer infoGen
      = writeAfterDrain (writeDrainPhase st sort) filename format sort writer
          infoGen := by
  have hne : st.readers.isEmpty = false := by
    cases hr : st.readers with
    | nil => exact absurd hr hreaders
    | cons a l => rfl
  have hdrain : writeDrainPhase st sort
      = { st with
          data := { st.data with
            entries := st.data.entries ++ drained st.entryFilters st.readers },
          readers := [],
          log := st.log
            ++ Ev.warn "Full sort enabled, falling back to indirect mode"
              :: st.readers.map (fun _ => Ev.readerClosed) } := by
    unfold writeDrainPhase
    rw [hne, hsort]
    simp only [Bool.not_false, Bool.and_self, if_true]
    rw [foldl_loadReader]
    simp [List.append_assoc]
  refine ⟨by rw [hdrain], by rw [hdrain], by rw [hdrain], ?_⟩
  unfold writeM
  rw [hplugin]
  simp [hcanWrite]

/-- Witness for C3: one pending reader yielding two items, one of which is a
`None` item skipped by the chain, with sorting requested. -/
theorem c3_write_drains_readers_witness :
    (writeDrainPhase
        ⟨⟨.memory, [⟨"z", "0"⟩], none⟩, [⟨[some ⟨"b", "1"⟩, none]⟩],
         [⟨"keep", fun e => some e⟩], ["keep"], fun _ => none, false, false,
         none, [], false, fun _ => none, []⟩
        (some true)).data.entries = [⟨"z", "0"⟩, ⟨"b", "1"⟩]
    ∧ (writeDrainPhase
        ⟨⟨.memory, [⟨"z", "0"⟩], none⟩, [⟨[some ⟨"b", "1"⟩, none]⟩],
         [⟨"keep", fun e => some e⟩], ["keep"], fun _ => none, false, false,
         none, [], false, fun _ => none, []⟩
        (some true)).readers = [] := by
  have h := c3_write_drains_readers
      ⟨fun _ => some ⟨"Tabfile", true, .DEFAULT_YES, none, none⟩,
       fun _ => none, fun _ _ => none, fun _ _ _ => none,
       fun _ => false, fun _ => false, fun _ => false, fun _ => .missing,
       [], false, false, ⟨"pb", fun e => some e⟩, ⟨"mm", fun e => some e⟩⟩
      ⟨⟨.memory, [⟨"z", "0"⟩], none⟩, [⟨[some ⟨"b", "1"⟩, none]⟩],
       [⟨"keep", fun e => some e⟩], ["keep"], fun _ => none, false, false,
       none, [], false, fun _ => none, []⟩
      "out.txt" "Tabfile" (some true) ⟨none, some ⟨9⟩⟩ ⟨9⟩
      ⟨"Tabfile", true, .DEFAULT_YES, none, none⟩
      (by simp) rfl rfl rfl
  refine ⟨?_, h.2.1⟩
  rw [h.1]
  rfl

/-- Lines 547-553 of `Glossary._openReader`: after a successful open, the
`definition_has_headwords` info value (when truthy) either sets the
title-suppression flag or is reported as a bad value. -/
def titleFlagUpdate (st : GlosState) : GlosState :=
  match st.info "definition_has_headwords" with
  | none => st
  | some v =>
    if v = "" then st
    else if v.toLower = "true" then { st with defiHasWordTitle := true }
    else { st with log := st.log
        ++ [Ev.errorL s!"bad info value: definition_has_headwords={v}"] }

/-- `Glossary._openReader` (glossary_v2.py:527-553): call `reader.open`
(logged as an open attempt) and consume its optional progress sequence; a
`FileNotFoundError` or `LookupError` raised by either is logged at critical
level and any other exception is logged with its traceback (`log.exception`),
and in every raising case the function returns `False` instead of
propagating.  On success the headword-title info flag is processed and the
function returns `True`. -/
def openReaderM (st0 : GlosState) (beh : OpenBeh) : GlosState × Bool :=
  let st := { st0 with log := st0.log ++ [Ev.readerOpened] }
  match beh with
  | .raises (PyExc.fileNotFound msg) =>
    ({ st with log := st.log ++ [Ev.crit msg] }, false)
  | .raises (PyExc.lookupError msg) =>
    ({ st with log := st.log ++ [Ev.crit msg] }, false)
  | .raises (PyExc.valueError msg) =>
    ({ st with log := st.log ++ [Ev.excL msg] }, false)
  | .raises PyExc.stopIteration =>
    ({ st with log := st.log ++ [Ev.excL ""] }, false)
  | .raises (PyExc.otherExc msg) =>
    ({ st with log := st.log ++ [Ev.excL msg] }, false)
  | .returnsNone => (titleFlagUpdate st, true)
  | .progressSeq _ (some (PyExc.fileNotFound msg)) =>
    ({ st with log := st.log ++ [Ev.crit msg] }, false)
  | .progressSeq _ (some (PyExc.lookupError msg)) =>
    ({ st with log := st.log ++ [Ev.crit msg] }, false)
  | .progressSeq _ (some (PyExc.valueError msg)) =>
    ({ st with log := st.log ++ [Ev.excL msg] }, false)
  | .progressSeq _ (some PyExc.stopIteration) =>
    ({ st with log := st.log ++ [Ev.excL ""] }, false)
  | .progressSeq _ (some (PyExc.otherExc msg)) =>
    ({ st with log := st.log ++ [Ev.excL msg] }, false)
  | .progressSeq _ none => (titleFlagUpdate st, true)

/-- `Glossary._read` (glossary_v2.py:569-614): detect the input format (a
failure returns `False`), rebuild the entry filters from configuration,
create the reader and open it via `_openReader` — an open failure makes
`_read` return `False` — then either load the whole reader (indirect mode)
or register it for streaming (direct mode).  Decompression, option
validation and filename bookkeeping do not affect the verified control flow
and are omitted. -/
def readM (env : Env) (st : GlosState) (filename format : String)
    (direct : Bool) (reader : Reader) (openBeh : OpenBeh) :
    GlosState × Bool :=
  match env.detectInputFormat filename format with
  | none => (st, false)
  | some _ =>
    let u := updateEntryFilters env.rules st.config env.hasProgress
      env.traceWithPsutil env.progressFilter env.memFilter
    let st1 := { st with
        entryFilters := u.1,
        entryFiltersName := u.2,
        log := st.log ++ [Ev.readerCreated] }
    let o := openReaderM st1 openBeh
    if !o.2 then (o.1, false)
    else if !direct then (loadReader o.1 reader, true)
    else ({ o.1 with readers := o.1.readers ++ [reader] }, true)

/-- Claim C6: every exception raised by a reader's `open` (or while
iterating its open-progress sequence) is caught by `_openReader`, which
returns `False` rather than propagating: `FileNotFoundError` and
`LookupError` are logged at critical level, any other exception with its
traceback; consequently `_read` reports the read as failed (returns `False`)
for every such reader, whatever the detection outcome. -/
theorem c6_openReader_catches (env : Env) (st : GlosState)
    (filename format : String) (direct : Bool) (reader : Reader)
    (e : PyExc) (pairs : List (Nat × Nat)) (msg : String) :
    (openReaderM st (.raises e)).2 = false
    ∧ (openReaderM st (.progressSeq pairs (some e))).2 = false
    ∧ (openReaderM st (.raises (PyExc.fileNotFound msg))).1.log
        = st.log ++ [Ev.readerOpened, Ev.crit msg]
    ∧ (openReaderM st (.raises (PyExc.lookupError msg))).1.log
        = st.log ++ [Ev.readerOpened, Ev.crit msg]
    ∧ (openReaderM st (.raises (PyExc.valueError msg))).1.log
        = st.log ++ [Ev.readerOpened, Ev.excL msg]
    ∧ (openReaderM st (.raises (PyExc.otherExc msg))).1.log
        = st.log ++ [Ev.readerOpened, Ev.excL msg]
    ∧ (readM env st filename format direct reader (.raises e)).2 = false
    ∧ (readM env st filename format direct reader
        (.progressSeq pairs (some e))).2 = false := by
  refine ⟨?_, ?_, ?_, ?_, ?_, ?_, ?_, ?_⟩
  · cases e <;> rfl
  · cases e <;> rfl
  · simp [openReaderM]
  · simp [openReaderM]
  · simp [openReaderM]
  · simp [openReaderM]
  · unfold readM
    cases env.detectInputFormat filename format with
    | none => rfl
    | some d =>
      have hopen : ∀ st2 : GlosState,
          (openReaderM st2 (.raises e)).2 = false := by
        intro st2
        cases e <;> rfl
      simp only [hopen]
      rfl
  · unfold readM
    cases env.detectInputFormat filename format with
    | none => rfl
    | some d =>
      have hopen : ∀ st2 : GlosState,
          (openReaderM st2 (.progressSeq pairs (some e))).2 = false := by
        intro st2
        cases e <;> rfl
      simp only [hopen]
      rfl

/-- Lines 943-953 of `Glossary._checkSortKey`: look up the resolved name in
the sort-key registry (failure is critical), log the chosen key, and default
the encoding to utf-8. -/
def lookupPhase (env : Env) (sortKeyName : Option String)
    (sortEncoding : Option String) (evs : List Ev) :
    Option (NamedSortKey × String) × List Ev :=
  match env.lookupSortKey (sortKeyName.getD "") with
  | none => (none, evs ++ [Ev.crit "invalid sortKeyName"])
  | some nsk =>
    let enc :=
      if !(strTruthy sortEncoding) then "utf-8" else sortEncoding.getD "utf-8"
    (some (nsk, enc), evs ++ [Ev.infoL s!"Using sortKeyName = {nsk.name}"])

/-- `Glossary._checkSortKey` (glossary_v2.py:911-953): resolve the sort key
name and encoding with precedence writer-mandated (under ALWAYS, with a
warning when a different user key is ignored, and a missing writer key
critical) over user-specified over the writer's suggestion over the
default. -/
def checkSortKeyM (env : Env) (plugin : PluginProp)
    (sortKeyName0 sortEncoding0 : Option String) :
    Option (NamedSortKey × String) × List Ev :=
  let writerSortKeyName := plugin.sortKeyName
  let writerSortEncoding := plugin.sortEncoding
  if plugin.sortOnWrite = .ALWAYS then
    if !(strTruthy writerSortKeyName) then
      (none, [Ev.crit "No sortKeyName was found in plugin"])
    else
      let evs1 :=
        if strTruthy sortKeyName0 && !(sortKeyName0 == writerSortKeyName) then
          [Ev.warn "Ignoring user-defined sort order"]
        else []
      let enc :=
        if strTruthy writerSortEncoding then writerSortEncoding
        else sortEncoding0
      lookupPhase env writerSortKeyName enc evs1
  else
    let skn :=
      if !(strTruthy sortKeyName0) then
        if strTruthy writerSortKeyName then writerSortKeyName
        else some defaultSortKeyName
      else sortKeyName0
    lookupPhase env skn sortEncoding0 []

/-- The db path `join(cacheDir, basename(inputFilename) + ".db")`; the cache
directory and basename are path cosmetics and kept abstract. -/
def sqFilePath (inputFilename : String) : String :=
  inputFilename ++ ".db"

/-- `Glossary._switchToSQLite` (glossary_v2.py:807-834): replace `self._data`
with a fresh disk-backed `SqEntryList` (logging removal of a stale db file
first), disable raw-entry compression, register the db file for cleanup,
warn when `enable_alts` was disabled, then force-enable it and set the
SQLite flag. -/
def switchToSQLite (env : Env) (st : GlosState) (inputFilename : String) :
    GlosState :=
  let fp := sqFilePath inputFilename
  let st0 :=
    if env.isfile fp then
      { st with log := st.log ++ [Ev.infoL s!"Removing and re-creating {fp}"] }
    else st
  let st1 := { st0 with
      data := ⟨Backend.sqlite fp, [], none⟩,
      rawEntryCompress := false,
      cleanupPathList := st0.cleanupPathList ++ [fp],
      log := st0.log ++ [Ev.backendSwitched fp] }
  let st2 :=
    if !(st1.config.get "enable_alts" (.bool true)).truthyV then
      { st1 with log := st1.log
          ++ [Ev.warn "SQLite mode only works with enable_alts=True, force-enabling it."] }
    else st1
  { st2 with
      config := st2.config.set "enable_alts" (.bool true),
      sqlite := true }

/-- `Glossary._processSortParams` (glossary_v2.py:955-983): resolve the sort
key (failure aborts with `None`), switch to the SQLite backend when
requested, bind the sort key on the (possibly new) backend, and return
`(direct, sort) = (False, True)`. -/
def processSortParamsM (env : Env) (st : GlosState) (plugin : PluginProp)
    (sortKeyName sortEncoding : Option String) (sqlite : Bool)
    (inputFilename : String) : GlosState × Option (Bool × Bool) :=
  match checkSortKeyM env plugin sortKeyName sortEncoding with
  | (none, evs) => ({ st with log := st.log ++ evs }, none)
  | (some (nsk, enc), evs) =>
    let st1 := { st with log := st.log ++ evs }
    let st2 := if sqlite then switchToSQLite env st1 inputFilename else st1
    let st3 := { st2 with
        data := st2.data.setSortKey nsk enc,
        log := st2.log ++ [Ev.sortKeyBound nsk.name enc] }
    (st3, some (false, true))

/-- Claim C8: whenever disk-backed (SQLite) storage is chosen for a sorted
conversion, `_processSortParams` replaces the `EntryList` backend with the
disk-backed store before the sort key is bound — `setSortKey` acts on the
fresh backend, as both the final state and the event order show — and
`enable_alts` is set to `True`, with a warning logged exactly when it was
previously disabled. -/
theorem c8_sqlite_switch (env : Env) (st : GlosState) (plugin : PluginProp)
    (sortKeyName sortEncoding : Option String) (inputFilename : String)
    (nsk : NamedSortKey) (enc : String) (evs : List Ev)
    (rst : GlosState × Option (Bool × Bool))
    (hck : checkSortKeyM env plugin sortKeyName sortEncoding
      = (some (nsk, enc), evs))
    (hr : processSortParamsM env st plugin sortKeyName sortEncoding true
      inputFilename = rst) :
    rst.2 = some (false, true)
    ∧ rst.1.data.backend = Backend.sqlite (sqFilePath inputFilename)
    ∧ rst.1.data.sortKey = some ⟨nsk.name, enc, nsk.key⟩
    ∧ rst.1.sqlite = true
    ∧ rst.1.config "enable_alts" = some (ConfigVal.bool true)
    ∧ sqFilePath inputFilename ∈ rst.1.cleanupPathList
    ∧ rst.1.log
        = st.log ++ evs
          ++ (if env.isfile (sqFilePath inputFilename) then
                [Ev.infoL s!"Removing and re-creating {sqFilePath inputFilename}"]
              else [])
          ++ [Ev.backendSwitched (sqFilePath inputFilename)]
          ++ (if (st.config.get "enable_alts" (.bool true)).truthyV then []
              else
                [Ev.warn "SQLite mode only works with enable_alts=True, force-enabling it."])
          ++ [Ev.sortKeyBound nsk.name enc] := by
  subst hr
  unfold processSortParamsM
  rw [hck]
  by_cases hf : env.isfile (sqFilePath inputFilename) = true
  · by_cases ha : (st.config.get "enable_alts" (.bool true)).truthyV = true
    · simp [switchToSQLite, EntryList.setSortKey, Config.set, hf, ha,
        List.append_assoc]
    · simp [switchToSQLite, EntryList.setSortKey, Config.set, hf, ha,
        List.append_assoc]
  · by_cases ha : (st.config.get "enable_alts" (.bool true)).truthyV = true
    · simp [switchToSQLite, EntryList.setSortKey, Config.set, hf, ha,
        List.append_assoc]
    · simp [switchToSQLite, EntryList.setSortKey, Config.set, hf, ha,
        List.append_assoc]

/-- Witness for C8: a DEFAULT_YES plugin with no writer key, the default
sort key resolved from the registry, SQLite requested, default
configuration. -/
theorem c8_sqlite_switch_witness :
    (processSortParamsM
        ⟨fun _ => none, fun _ => some ⟨"headword_lower", fun e => e.word.length⟩,
         fun _ _ => none, fun _ _ _ => none, fun _ => false, fun _ => false,
         fun _ => false, fun _ => .missing, [], false, false,
         ⟨"pb", fun e => some e⟩, ⟨"mm", fun e => some e⟩⟩
        ⟨⟨.memory, [], none⟩, [], [], [], fun _ => none, false, false, none,
         [], false, fun _ => none, []⟩
        ⟨"StarDict", true, .DEFAULT_YES, none, none⟩
        none none true "in.txt").2 = some (false, true)
    ∧ (processSortParamsM
        ⟨fun _ => none, fun _ => some ⟨"headword_lower", fun e => e.word.length⟩,
         fun _ _ => none, fun _ _ _ => none, fun _ => false, fun _ => false,
         fun _ => false, fun _ => .missing, [], false, false,
         ⟨"pb", fun e => some e⟩, ⟨"mm", fun e => some e⟩⟩
        ⟨⟨.memory, [], none⟩, [], [], [], fun _ => none, false, false, none,
         [], false, fun _ => none, []⟩
        ⟨"StarDict", true, .DEFAULT_YES, none, none⟩
        none none true "in.txt").1.data.backend = Backend.sqlite "in.txt.db"
    ∧ (processSortParamsM
        ⟨fun _ => none, fun _ => some ⟨"headword_lower", fun e => e.word.length⟩,
         fun _ _ => none, fun _ _ _ => none, fun _ => false, fun _ => false,
         fun _ => false, fun _ => .missing, [], false, false,
         ⟨"pb", fun e => some e⟩, ⟨"mm", fun e => some e⟩⟩
        ⟨⟨.memory, [], none⟩, [], [], [], fun _ => none, false, false, none,
         [], false, fun _ => none, []⟩
        ⟨"StarDict", true, .DEFAULT_YES, none, none⟩
        none none true "in.txt").1.config "enable_alts"
      = some (ConfigVal.bool true) := by
  have h := c8_sqlite_switch
      ⟨fun _ => none, fun _ => some ⟨"headword_lower", fun e => e.word.length⟩,
       fun _ _ => none, fun _ _ _ => none, fun _ => false, fun _ => false,
       fun _ => false, fun _ => .missing, [], false, false,
       ⟨"pb", fun e => some e⟩, ⟨"mm", fun e => some e⟩⟩
      ⟨⟨.memory, [], none⟩, [], [], [], fun _ => none, false, false, none,
       [], false, fun _ => none, []⟩
      ⟨"StarDict", true, .DEFAULT_YES, none, none⟩
      none none "in.txt" ⟨"headword_lower", fun e => e.word.length⟩ "utf-8"
      [Ev.infoL "Using sortKeyName = headword_lower"]
      (processSortParamsM
        ⟨fun _ => none, fun _ => some ⟨"headword_lower", fun e => e.word.length⟩,
         fun _ _ => none, fun _ _ _ => none, fun _ => false, fun _ => false,
         fun _ => false, fun _ => .missing, [], false, false,
         ⟨"pb", fun e => some e⟩, ⟨"mm", fun e => some e⟩⟩
        ⟨⟨.memory, [], none⟩, [], [], [], fun _ => none, false, false, none,
         [], false, fun _ => none, []⟩
        ⟨"StarDict", true, .DEFAULT_YES, none, none⟩
        none none true "in.txt")
      rfl rfl
  exact ⟨h.1, h.2.1, h.2.2.2.2.1⟩

/-- Python repr of an `Optional[bool]`, as interpolated into the f-string of
the conflicting-arguments error. -/
def reprOptBool : Option Bool → String
  | none => "None"
  | some true => "True"
  | some false => "False"

/-- `Glossary._resolveSortParams` (glossary_v2.py:864-909): raise
`ValueError` when `direct` and `sqlite` are both truthy, before anything
else; resolve the sort flag from the plugin policy (warnings logged); with
no sorting return `(direct, False)` with `direct` defaulting to `True`;
otherwise decide SQLite mode — explicit request, or the `auto_sqlite`
config default with an info log — and delegate to `_processSortParams`. -/
def resolveSortParams (env : Env) (st : GlosState) (sort : Option Bool)
    (sortKeyName sortEncoding : Option String) (direct sqlite : Option Bool)
    (inputFilename outputFormat : String) :
    GlosState × Except PyExc (Option (Bool × Bool)) :=
  if truthy direct && truthy sqlite then
    (st, .error (.valueError
      s!"Conflictng arguments: direct={reprOptBool direct}, sqlite={reprOptBool sqlite}"))
  else
    match env.plugins outputFormat with
    | none => (st, .error (.otherExc "KeyError"))
    | some plugin =>
      let cs := checkSortFlag plugin sort
      let st1 := { st with log := st.log ++ cs.2.map Ev.warn }
      if !cs.1 then
        (st1, .ok (some (direct.getD true, false)))
      else
        let auto := (st1.config.get "auto_sqlite" (.bool true)).truthyV
        let st2 :=
          if sqlite == none && auto then
            { st1 with log := st1.log
                ++ [Ev.infoL s!"Automatically switching to SQLite mode for writing {plugin.name}"] }
          else st1
        let sqliteB :=
          match sqlite with
          | none => auto
          | some b => b
        let p := processSortParamsM env st2 plugin sortKeyName sortEncoding
          sqliteB inputFilename
        (p.1, .ok p.2)

/-- `Glossary._convertPrepare` (glossary_v2.py:1002-1054): refuse a
non-empty output directory, resolve sort parameters (a raised `ValueError`
propagates), create the temp data dir (registered for cleanup), read the
input — on failure log, clean up and abort — and return the resolved sort
flag.  `detectLangsFromName` touches only glossary metadata and is
omitted. -/
def convertPrepare (env : Env) (st : GlosState)
    (inputFilename inputFormat outputFilename outputFormat : String)
    (direct sort : Option Bool) (sortKeyName sortEncoding : Option String)
    (sqlite : Option Bool) (reader : Reader) (openBeh : OpenBeh) :
    GlosState × Except PyExc (Option Bool) :=
  if env.outputDirNonEmpty outputFilename then
    ({ st with
        log := st.log ++ [Ev.crit "Directory already exists and not empty"] },
      .ok none)
  else
    match resolveSortParams env st sort sortKeyName sortEncoding direct
        sqlite inputFilename outputFormat with
    | (st1, .error e) => (st1, .error e)
    | (st1, .ok none) => (st1, .ok none)
    | (st1, .ok (some (direct2, sort2))) =>
      let st2 := { st1 with
          cleanupPathList := st1.cleanupPathList ++ [inputFilename ++ "_res"],
          log := st1.log ++ [Ev.tmpDirCreated] }
      let r := readM env st2 inputFilename inputFormat direct2 reader openBeh
      if !r.2 then
        (cleanupM env { r.1 with
            log := r.1.log ++ [Ev.crit "Reading file failed."] }, .ok none)
      else
        (r.1, .ok (some sort2))

/-- `Glossary.convert` (glossary_v2.py:1056-1159): refuse equal input and
output paths, detect the output format (failure is critical), run
`_convertPrepare` — its `ValueError` on conflicting arguments propagates
uncaught — then `_write`; on write failure log and clean up; on success
optionally compress, log and clean up.  String-type validation, option-dict
defaulting, info overrides and timing logs do not affect the verified
control flow and are omitted. -/
def convertM (env : Env) (st : GlosState)
    (inputFilename inputFormat outputFilename outputFormat : String)
    (direct sort : Option Bool) (sortKeyName sortEncoding : Option String)
    (sqlite : Option Bool) (reader : Reader) (openBeh : OpenBeh)
    (writer : WriterBeh) (infoGen : Sink) :
    GlosState × Except PyExc (Option String) :=
  if outputFilename == inputFilename then
    ({ st with
        log := st.log ++ [Ev.crit "Input and output files are the same"] },
      .ok none)
  else
    match env.detectOutputFormat outputFilename outputFormat inputFilename with
    | none =>
      ({ st with log := st.log ++ [Ev.crit "Writing file failed."] }, .ok none)
    | some (outFname2, outFormat2, compression) =>
      match convertPrepare env st inputFilename inputFormat outFname2
          outFormat2 direct sort sortKeyName sortEncoding sqlite reader
          openBeh with
      | (st1, .error e) => (st1, .error e)
      | (st1, .ok none) => (st1, .ok none)
      | (st1, .ok (some sort2)) =>
        let w := writeM env st1 outFname2 outFormat2 (some sort2) writer
          infoGen
        match w.2.2 with
        | none =>
          (cleanupM env { w.1 with
              log := w.1.log ++ [Ev.crit "Writing file failed."] }, .ok none)
        | some finalFile =>
          let st3 :=
            match compression with
            | some c => { w.1 with log := w.1.log ++ [Ev.compressed c] }
            | none => w.1
          let finalOut :=
            match compression with
            | some c => finalFile ++ "." ++ c
            | none => finalFile
          (cleanupM env { st3 with
              log := st3.log ++ [Ev.infoL "Writing file done."] },
            .ok (some finalOut))

/-- Claim C1: requesting both streaming and disk-backed storage
(`direct=True` together with `sqlite=True`) makes `_resolveSortParams` raise
a `ValueError` configuration error immediately, with the state untouched;
and a `convert` call with those arguments (passing the same-path and
output-format pre-checks) propagates exactly that error with the state —
including the event log — unchanged, so no reader or writer was created and
no file was opened. -/
theorem c1_direct_sqlite_conflict (env : Env) (st : GlosState)
    (sort : Option Bool) (sortKeyName sortEncoding : Option String)
    (inputFilename inputFormat outputFilename outputFormat : String)
    (reader : Reader) (openBeh : OpenBeh) (writer : WriterBeh)
    (infoGen : Sink) (outFname2 outFormat2 : String)
    (compression : Option String)
    (hne : (outputFilename == inputFilename) = false)
    (hdet : env.detectOutputFormat outputFilename outputFormat inputFilename
      = some (outFname2, outFormat2, compression))
    (hdir : env.outputDirNonEmpty outFname2 = false) :
    resolveSortParams env st sort sortKeyName sortEncoding (some true)
        (some true) inputFilename outFormat2
      = (st, .error (.valueError
          "Conflictng arguments: direct=True, sqlite=True"))
    ∧ convertM env st inputFilename inputFormat outputFilename outputFormat
        (some true) sort sortKeyName sortEncoding (some true) reader openBeh
        writer infoGen
      = (st, .error (.valueError
          "Conflictng arguments: direct=True, sqlite=True")) := by
  have hres : resolveSortParams env st sort sortKeyName sortEncoding
      (some true) (some true) inputFilename outFormat2
      = (st, .error (.valueError
          "Conflictng arguments: direct=True, sqlite=True")) := rfl
  refine ⟨hres, ?_⟩
  unfold convertM
  rw [hne]
  simp only [Bool.false_eq_true, if_false]
  rw [hdet]
  dsimp only
  have hprep : convertPrepare env st inputFilename inputFormat outFname2
      outFormat2 (some true) sort sortKeyName sortEncoding (some true)
      reader openBeh
      = (st, .error (.valueError
          "Conflictng arguments: direct=True, sqlite=True")) := by
    unfold convertPrepare
    rw [hdir]
    simp only [Bool.false_eq_true, if_false]
    rw [hres]
  rw [hprep]

/-- Witness for C1 at a concrete conversion request: distinct input and
output paths, a detectable output format, `direct=True` and `sqlite=True`. -/
theorem c1_direct_sqlite_conflict_witness :
    convertM
        ⟨fun _ => some ⟨"Tabfile", true, .DEFAULT_NO, none, none⟩,
         fun _ => none, fun _ _ => none,
         fun _ _ _ => some ("out.txt", "Tabfile", none),
         fun _ => false, fun _ => false, fun _ => false, fun _ => .missing,
         [], false, false, ⟨"pb", fun e => some e⟩, ⟨"mm", fun e => some e⟩⟩
        ⟨⟨.memory, [], none⟩, [], [], [], fun _ => none, false, false, none,
         [], false, fun _ => none, []⟩
        "in.txt" "" "out.txt" "Tabfile" (some true) none none none
        (some true) ⟨[]⟩ .returnsNone ⟨none, some ⟨9⟩⟩ ⟨9⟩
      = (⟨⟨.memory, [], none⟩, [], [], [], fun _ => none, false, false, none,
          [], false, fun _ => none, []⟩,
         .error (.valueError
           "Conflictng arguments: direct=True, sqlite=True")) := by
  have h := c1_direct_sqlite_conflict
      ⟨fun _ => some ⟨"Tabfile", true, .DEFAULT_NO, none, none⟩,
       fun _ => none, fun _ _ => none,
       fun _ _ _ => some ("out.txt", "Tabfile", none),
       fun _ => false, fun _ => false, fun _ => false, fun _ => .missing,
       [], false, false, ⟨"pb", fun e => some e⟩, ⟨"mm", fun e => some e⟩⟩
      ⟨⟨.memory, [], none⟩, [], [], [], fun _ => none, false, false, none,
       [], false, fun _ => none, []⟩
      none none none "in.txt" "" "out.txt" "Tabfile" ⟨[]⟩ .returnsNone
      ⟨none, some ⟨9⟩⟩ ⟨9⟩ "out.txt" "Tabfile" none
      (by decide) rfl rfl
  exact h.2

/-- The names of the methods and properties defined on the legacy `Glossary`
class by the reviewed source files: the overrides in glossary.py:29-112 plus
the inherited `glossary_v2.Glossary` body (glossary_v2.py:94-1172). -/
def sourceMethodNames : List String :=
  ["read", "sortWords",
   "_closeReaders", "clear", "__init__", "cleanup", "rawEntryCompress",
   "setRawEntryCompress", "updateEntryFilters", "prepareEntryFilters",
   "_addExtraEntryFilter", "removeHtmlTagsAll", "preventDuplicateWords",
   "__str__", "_loadedEntryGen", "_readersEntryGen", "_applyEntryFiltersGen",
   "__iter__", "setDefaultDefiFormat", "getDefaultDefiFormat",
   "collectDefiFormat", "__len__", "config", "alts", "filename",
   "tmpDataDir", "wordTitleStr", "getConfig", "addEntryObj", "newEntry",
   "newDataEntry", "_createReader", "_setTmpDataDir", "_validateReadoptions",
   "_openReader", "directRead", "_read", "loadReader", "_createWriter",
   "write", "_writeEntries", "_openWriter", "_write", "_compressOutput",
   "_switchToSQLite", "_checkSortFlag", "_resolveSortParams", "_checkSortKey",
   "_processSortParams", "_convertValidateStrings", "_convertPrepare",
   "convert"]

/-- `Glossary.sortWords` (glossary.py:73-112), the legacy sort API.  Direct
or SQLite mode raise `NotImplementedError`; an unknown sort key logs a
critical error and returns; otherwise the sort key is bound, `self._data` is
sorted, `self._sort` is set, and `self._updateIter()` is invoked — attribute
lookup over the methods of the legacy class and the v2 class
(`sourceMethodNames`) and of the base classes (`baseMethods`; modelled from
the spec: `GlossaryInfo`, `GlossaryProgress`, `PluginManager` and the
`GlossaryType` interface provide metadata, progress-reporting and
plugin-registry capabilities), raising `AttributeError` when the name is
defined nowhere. -/
def sortWords (env : Env) (baseMethods : List String) (st : GlosState)
    (sortKeyName sortEncoding : String) :
    GlosState × Except PyExc Unit :=
  if !st.readers.isEmpty then
    (st, .error (.otherExc
      "NotImplementedError: can not use sortWords in direct mode"))
  else if st.sqlite then
    (st, .error (.otherExc
      "NotImplementedError: can not use sortWords in SQLite mode"))
  else
    match env.lookupSortKey sortKeyName with
    | none =>
      ({ st with log := st.log ++ [Ev.crit "invalid sortKeyName"] }, .ok ())
    | some nsk =>
      let enc := if sortEncoding = "" then "utf-8" else sortEncoding
      let st1 := { st with
          data := (st.data.setSortKey nsk enc).sortData,
          log := st.log ++ [Ev.sortKeyBound nsk.name enc, Ev.dataSorted],
          sortFlag := some true }
      if "_updateIter" ∈ sourceMethodNames ++ baseMethods then
        (st1, .ok ())
      else
        (st1, .error (.otherExc "AttributeError: _updateIter"))

/-- Claim C10: for every loaded (non-direct, non-SQLite) glossary and valid
sort key name, the legacy `sortWords` binds the sort key and sorts the data,
then invokes the attribute `_updateIter`, which no reviewed source file
defines (and which the base classes, per their spec, do not provide), so
every otherwise-successful call terminates by raising `AttributeError` after
the data has already been sorted. -/
theorem c10_sortWords_attributeError (env : Env) (baseMethods : List String)
    (st : GlosState) (skn se : String) (nsk : NamedSortKey)
    (hreaders : st.readers = []) (hsql : st.sqlite = false)
    (hkey : env.lookupSortKey skn = some nsk)
    (hbase : "_updateIter" ∉ baseMethods) :
    (sortWords env baseMethods st skn se).2
      = .error (.otherExc "AttributeError: _updateIter")
    ∧ (sortWords env baseMethods st skn se).1.data
      = (st.data.setSortKey nsk (if se = "" then "utf-8" else se)).sortData
    ∧ (sortWords env baseMethods st skn se).1.sortFlag = some true := by
  have hsrc : "_updateIter" ∉ sourceMethodNames := by decide
  have hmem : "_updateIter" ∉ sourceMethodNames ++ baseMethods := by
    intro hmem
    rcases List.mem_append.1 hmem with h | h
    · exact hsrc h
    · exact hbase h
  unfold sortWords
  rw [hreaders, hsql, hkey]
  simp [hmem]

/-- Witness for C10: a two-entry glossary sorted with the default key; the
call raises `AttributeError` and the entries come out sorted. -/
theorem c10_sortWords_attributeError_witness :
    (sortWords
        ⟨fun _ => none,
         fun s => if s = "headword_lower" then
             some ⟨"headword_lower", fun e => e.word.length⟩
           else none,
         fun _ _ => none, fun _ _ _ => none, fun _ => false, fun _ => false,
         fun _ => false, fun _ => .missing, [], false, false,
         ⟨"pb", fun e => some e⟩, ⟨"mm", fun e => some e⟩⟩
        [] ⟨⟨.memory, [⟨"bb", "2"⟩, ⟨"a", "1"⟩], none⟩, [], [], [],
         fun _ => none, false, false, none, [], false, fun _ => none, []⟩
        "headword_lower" "").2
      = .error (.otherExc "AttributeError: _updateIter")
    ∧ (sortWords
        ⟨fun _ => none,
         fun s => if s = "headword_lower" then
             some ⟨"headword_lower", fun e => e.word.length⟩
           else none,
         fun _ _ => none, fun _ _ _ => none, fun _ => false, fun _ => false,
         fun _ => false, fun _ => .missing, [], false, false,
         ⟨"pb", fun e => some e⟩, ⟨"mm", fun e => some e⟩⟩
        [] ⟨⟨.memory, [⟨"bb", "2"⟩, ⟨"a", "1"⟩], none⟩, [], [], [],
         fun _ => none, false, false, none, [], false, fun _ => none, []⟩
        "headword_lower" "").1.data.entries
      = [⟨"a", "1"⟩, ⟨"bb", "2"⟩] := by
  have h := c10_sortWords_attributeError
      ⟨fun _ => none,
       fun s => if s = "headword_lower" then
           some ⟨"headword_lower", fun e => e.word.length⟩
         else none,
       fun _ _ => none, fun _ _ _ => none, fun _ => false, fun _ => false,
       fun _ => false, fun _ => .missing, [], false, false,
       ⟨"pb", fun e => some e⟩, ⟨"mm", fun e => some e⟩⟩
      [] ⟨⟨.memory, [⟨"bb", "2"⟩, ⟨"a", "1"⟩], none⟩, [], [], [],
       fun _ => none, false, false, none, [], false, fun _ => none, []⟩
      "headword_lower" "" ⟨"headword_lower", fun e => e.word.length⟩
      rfl rfl rfl (by simp)
  refine ⟨h.1, ?_⟩
  rw [h.2.1]
  decide

end PyGlossary
